import Mathlib

/-!
Verification of the single-step advance subsystem of the odelab
time-integration framework (files `odelab/scheme/__init__.py` and
`odelab/system/nonholonomic.py`), as a shallow embedding.

State vectors are modelled over exact arithmetic: scalar states as `ℚ`,
vector states as functions into `ℚ` or as elements of an additive group
with a `ℚ`-module structure.  Real-power arithmetic (the adaptive
step-size formula) is modelled over `ℝ`.  External collaborators
(the root solvers of `odelab.newton`, scipy's `vode` integrator) appear
as explicit function parameters describing only their call/return
behaviour, exactly as the schemes observe them.
-/

/-! ## Scheme core: compensated-summation step (scheme/__init__.py, Scheme) -/

/-- Models `Scheme.initialize`, which sets `self.roundoff = 0.` -/
def Scheme.initRoundoff {U : Type} [Zero U] : U := 0

/-- Models `Scheme.step(self, t, u0, h)`:
`t1, du = self.delta(t,u0,h)`; `self.roundoff += du`;
`u1 = u0 + self.roundoff`; `self.roundoff += u0 - u1`; `return t1, u1`.
The persistent accumulator `self.roundoff` is threaded explicitly:
the result is the pair (new roundoff, (t1, u1)). -/
def Scheme.step {U : Type} [AddCommGroup U]
    (delta : ℚ → U → ℚ → ℚ × U) (roundoff : U) (t : ℚ) (u0 : U) (h : ℚ) :
    U × (ℚ × U) :=
  let t1 := (delta t u0 h).1
  let du := (delta t u0 h).2
  let c1 := roundoff + du
  let u1 := u0 + c1
  let c2 := c1 + (u0 - u1)
  (c2, (t1, u1))

/-- Models `Scheme.do_step(self, event)`:
`u, t = event[:-1], event[-1]`; `new_t, new_u = self.step(t, u, self.h)`;
`return np.hstack([new_u, new_t])`.  The scheme's stored step size
`self.h` is the `selfH` parameter; the event is the pair (u, t). -/
def Scheme.do_step (stepFn : ℚ → ℚ → ℚ → ℚ × ℚ) (selfH : ℚ)
    (event : ℚ × ℚ) : ℚ × ℚ :=
  let r := stepFn event.2 event.1 selfH
  (r.2, r.1)

/-! ## Scheme.delta: direct solve with Newton fallback

The root solvers live in `odelab.newton`; `Scheme.delta` only observes
them through `run(guess)`, which either returns a root or signals
non-convergence (the `DidNotConverge` exception).  That observable
behaviour is the `RunOutcome` type; each solver is a parameter mapping
(residual, guess) to an outcome. -/

/-- Observable outcome of a root solver's `run`: a returned root, or the
`DidNotConverge` exception. -/
inductive RunOutcome (U : Type) where
  | converged : U → RunOutcome U
  | didNotConverge : RunOutcome U
deriving DecidableEq

/-- Result of `Scheme.delta`: `result` is `some (t1, du)` on success and
`none` when the uncaught `DidNotConverge` of the Newton fallback
propagates to the caller; `log` records the `logging.info` diagnostics
emitted. -/
structure DeltaOutput (U : Type) where
  result : Option (ℚ × U)
  log : List String
deriving DecidableEq

/-- Models `Scheme.delta(self, t, u0, h)`:
`residual = self.get_residual(t,u0,h)`; `guess = self.get_guess(t,u0,h)`;
`fsolve = FSolve(residual)`; `newton = Newton(residual)`;
`try: root = fsolve.run(guess)`
`except fsolve.DidNotConverge: logging.info(...); root = newton.run(guess)`;
`du = self.reconstruct(root)`; `return t+h, du`.
A `DidNotConverge` raised by `newton.run` is not caught: `result = none`. -/
def Scheme.delta {U : Type}
    (get_residual : ℚ → U → ℚ → (U → U)) (get_guess : ℚ → U → ℚ → U)
    (reconstruct : U → U)
    (fsolveRun newtonRun : (U → U) → U → RunOutcome U)
    (t : ℚ) (u0 : U) (h : ℚ) : DeltaOutput U :=
  let residual := get_residual t u0 h
  let guess := get_guess t u0 h
  match fsolveRun residual guess with
  | RunOutcome.converged root => ⟨some (t + h, reconstruct root), []⟩
  | RunOutcome.didNotConverge =>
      match newtonRun residual guess with
      | RunOutcome.converged root =>
          ⟨some (t + h, reconstruct root), ["Switch nonlinear solver"]⟩
      | RunOutcome.didNotConverge => ⟨none, ["Switch nonlinear solver"]⟩

/-! ## ExplicitEuler (scheme/__init__.py) -/

/-- Models `ExplicitEuler.step(self, t, u, h)`:
`return t + h, u + self.h*self.system.f(t, u)`.
Note the source multiplies by the stored step size `self.h` (parameter
`selfH`), not by the argument `h`. -/
def ExplicitEuler.step (f : ℚ → ℚ → ℚ) (selfH : ℚ) (t u h : ℚ) : ℚ × ℚ :=
  (t + h, u + selfH * f t u)

/-! ## ImplicitEuler (scheme/__init__.py) -/

/-- The residual closure built inside `ImplicitEuler.step`:
`residual(u1) = u1 - u - h*self.system.f(t+h, u1)`. -/
def ImplicitEuler.residual (f : ℚ → ℚ → ℚ) (t u h u1 : ℚ) : ℚ :=
  u1 - u - h * f (t + h) u1

/-- Models `ImplicitEuler.step(self, t, u, h)`:
`N = self.root_solver(residual)`; `u1 = N.run(u + h*self.system.f(t,u))`;
`return t + self.h, u1`.  The root solver is the parameter `solverRun`
(residual, guess) ↦ root.  Note the returned time uses the stored step
size `self.h` (parameter `selfH`), not the argument `h`. -/
def ImplicitEuler.step (f : ℚ → ℚ → ℚ) (solverRun : (ℚ → ℚ) → ℚ → ℚ)
    (selfH t u h : ℚ) : ℚ × ℚ :=
  let u1 := solverRun (fun u1 => ImplicitEuler.residual f t u h u1)
      (u + h * f t u)
  (t + selfH, u1)

/-! ## RungeKutta4 and RungeKutta34 (scheme/__init__.py)

The state lives in an arbitrary `ℚ`-module (modelling numpy arrays of
any fixed shape); `np.linalg.norm` is an abstract parameter of
`RungeKutta34.step`. -/

/-- Models `RungeKutta4.step(self, t, u, h)` (the classical four-stage
update `u + h/6*(Y1 + 2*Y2 + 2*Y3 + Y4)`). -/
def RungeKutta4.step {V : Type} [AddCommGroup V] [Module ℚ V]
    (f : ℚ → V → V) (t : ℚ) (u : V) (h : ℚ) : ℚ × V :=
  let Y1 := f t u
  let Y2 := f (t + h / 2) (u + (h / 2) • Y1)
  let Y3 := f (t + h / 2) (u + (h / 2) • Y2)
  let Y4 := f (t + h) (u + h • Y3)
  (t + h, u + (h / 6) • (Y1 + (2 : ℚ) • Y2 + (2 : ℚ) • Y3 + Y4))

/-- Models `RungeKutta34.step(self, t, u, h)`: the same four stages as
RungeKutta4 plus the extra stage `Z3 = f(t + h, u - h*Y1 + 2*h*Y2)`;
it stores `self.error = norm(h/6*(2*Y2 + Z3 - 2*Y3 - Y4))` and returns
`t+h, u + h/6*(Y1 + 2*Y2 + 2*Y3 + Y4)`.  The result is
((t1, u1), error). -/
def RungeKutta34.step {V : Type} [AddCommGroup V] [Module ℚ V]
    (norm : V → ℝ) (f : ℚ → V → V) (t : ℚ) (u : V) (h : ℚ) :
    (ℚ × V) × ℝ :=
  let Y1 := f t u
  let Y2 := f (t + h / 2) (u + (h / 2) • Y1)
  let Y3 := f (t + h / 2) (u + (h / 2) • Y2)
  let Z3 := f (t + h) (u - h • Y1 + (2 * h) • Y2)
  let Y4 := f (t + h) (u + h • Y3)
  ((t + h, u + (h / 6) • (Y1 + (2 : ℚ) • Y2 + (2 : ℚ) • Y3 + Y4)),
    norm ((h / 6) • ((2 : ℚ) • Y2 + Z3 - (2 : ℚ) • Y3 - Y4)))

/-- Models the class attribute `RungeKutta34.error_order = 4.` -/
noncomputable def RungeKutta34.error_order : ℝ := 4

/-- Models `RungeKutta34.increment_stepsize(self)`:
`if self.error > 1e-15: self.h *= (self.tol/self.error)**(1/self.error_order)`
`else: self.h = 1.`
Stored fields `self.tol`, `self.error`, `self.h` are parameters; the
result is the new stored `self.h`. -/
noncomputable def RungeKutta34.increment_stepsize (tol error h : ℝ) : ℝ :=
  if 1e-15 < error then h * (tol / error) ^ ((1 : ℝ) / RungeKutta34.error_order)
  else 1

/-! ## ode15s stiff adapter (scheme/__init__.py)

The scipy integrator is external: `ode15s` observes it through
`set_integrator` / `set_initial_value` (at initialization) and
`integrate` / `successful()` / `.t` / `.y` (at each step).  The adapter
state it builds is `VodeIntegrator`; the external `integrate` call is a
parameter mapping the target time to the solver's resulting
(`.t`, `.y`) pair and its `successful()` flag. -/

/-- The event array handed to `ode15s.initialize`: its dtype flag (what
`np.iscomplexobj` inspects) and its last column `e0 = events[:,-1]`,
whose last entry is the time and whose other entries are the state. -/
structure EventMatrix where
  isComplexDtype : Bool
  lastColumn : List ℚ
deriving DecidableEq

/-- Models `np.iscomplexobj`, a pure dtype check. -/
def iscomplexobj (events : EventMatrix) : Bool := events.isComplexDtype

/-- The adapter-visible state of the external scipy integrator after
`set_integrator` and `set_initial_value`: the chosen solver variant and
its current `.t` / `.y`. -/
structure VodeIntegrator where
  variant : String
  t : ℚ
  y : List ℚ
deriving DecidableEq

/-- Models `ode15s.initialize(self, events)`:
`e0 = events[:,-1]`;
`vodevariant = ['vode', 'zvode'][np.iscomplexobj(e0)]`;
`self.integ.set_integrator(vodevariant, ...)`;
`self.integ.set_initial_value(e0[:-1], e0[-1])`.
(`e0` is a column of `events`, so `np.iscomplexobj(e0)` equals
`np.iscomplexobj(events)`: both report the shared dtype.) -/
def ode15s.initializeInteg (events : EventMatrix) : VodeIntegrator :=
  let e0 := events.lastColumn
  let vodevariant := if iscomplexobj events then "zvode" else "vode"
  { variant := vodevariant, t := e0.getLastD 0, y := e0.dropLast }

/-- Models `ode15s.step(self, t, u, h)`:
`self.integ.integrate(self.integ.t + h)`;
`if not self.integ.successful(): print("vode error")`;
`return self.integ.t, self.integ.y`.
`vode` is the external `integrate` call: target time ↦ ((new `.t`,
new `.y`), `successful()`).  The result is ((updated integrator state,
diagnostics printed), returned (t, y)); there is no failure path. -/
def ode15s.step (vode : ℚ → (ℚ × List ℚ) × Bool) (s : VodeIntegrator)
    (h : ℚ) : (VodeIntegrator × List String) × (ℚ × List ℚ) :=
  let r := vode (s.t + h)
  let s1 : VodeIntegrator := { s with t := r.1.1, y := r.1.2 }
  let msgs := if r.2 then ([] : List String) else ["vode error"]
  ((s1, msgs), (s1.t, s1.y))

/-! ## Nonholonomic constrained-system splitting (system/nonholonomic.py)

A concrete nonholonomic system supplies `velocity`, `force`,
`codistribution` and `lag` over the augmented state (abstract type `U`);
position and velocity blocks have `d` components and there are `m`
constraints.  `np.concatenate([a, b])` of two `d`-vectors is modelled as
a function on `Fin d ⊕ Fin d`. -/

/-- The system contract consumed by `NonHolonomic` (from
`odelab.system.base.System` subclasses such as `ContactOscillator`). -/
structure NonHolonomicSystem (U : Type) (d m : ℕ) where
  velocity : U → Fin d → ℚ
  force : U → Fin d → ℚ
  codistribution : U → Fin m → Fin d → ℚ
  lag : U → Fin m → ℚ

/-- Models `NonHolonomic.reaction_force(self, u)`:
`np.tensordot(self.codistribution(u), self.lag(u), [0,0])`, i.e. the
contraction `j ↦ Σ_k codistribution(u)[k,j] * lag(u)[k]` (for a single,
non-vectorized state `tensordiag` is the identity: the result is a
1-tensor). -/
def NonHolonomic.reaction_force {U : Type} {d m : ℕ}
    (sys : NonHolonomicSystem U d m) (u : U) : Fin d → ℚ :=
  fun j => ∑ k : Fin m, sys.codistribution u k j * sys.lag u k

/-- The two Runge-Kutta tags keying the dictionary returned by
`NonHolonomic.multi_dynamics` (`rk.LobattoIIIA` and `rk.LobattoIIIB`). -/
inductive RKMethod where
  | LobattoIIIA : RKMethod
  | LobattoIIIB : RKMethod
deriving DecidableEq

/-- Models `NonHolonomic.multi_dynamics(self, ut)`:
`v = self.velocity(ut)`; `return {`
`rk.LobattoIIIA: np.concatenate([v, np.zeros_like(v)]),`
`rk.LobattoIIIB: np.concatenate([np.zeros_like(v), self.force(ut) + self.reaction_force(ut)])}`. -/
def NonHolonomic.multi_dynamics {U : Type} {d m : ℕ}
    (sys : NonHolonomicSystem U d m) (ut : U) :
    RKMethod → (Fin d ⊕ Fin d) → ℚ
  | RKMethod.LobattoIIIA =>
      Sum.elim (sys.velocity ut) (0 : Fin d → ℚ)
  | RKMethod.LobattoIIIB =>
      Sum.elim (0 : Fin d → ℚ)
        (fun j => sys.force ut j + NonHolonomic.reaction_force sys ut j)

/-! ## Theorems -/

/-- Claim C1: the default `Scheme.step(t, u0, h)` computes `du` via
`delta(t, u0, h)`, updates the persistent accumulator by `c += du`, sets
`u1 = u0 + c`, then `c += (u0 - u1)`, and returns `(t+h, u1)`; in exact
arithmetic, starting from the accumulator value 0 set by `initialize`,
the returned state `u1` equals `u0 + du` (and the accumulator returns
to 0). -/
theorem scheme_step_compensated_sum {U : Type} [AddCommGroup U]
    (delta : ℚ → U → ℚ → ℚ × U) (t : ℚ) (u0 : U) (h : ℚ)
    (ht : (delta t u0 h).1 = t + h) :
    Scheme.step delta Scheme.initRoundoff t u0 h
      = ((0 : U), (t + h, u0 + (delta t u0 h).2)) := by
  simp only [Scheme.step, Scheme.initRoundoff, ht, Prod.mk.injEq]
  refine ⟨by abel, ?_, by abel⟩
  trivial

/-- Witness for C1 at the concrete increment function
`delta t u h = (t + h, 42)`, state `u0 = 1`, step `h = 1/2`. -/
theorem scheme_step_compensated_sum_witness :
    ((fun (t : ℚ) (_ u : ℚ) => (t + u, (42 : ℚ))) 0 1 (1/2)).1 = 0 + 1/2 ∧
    Scheme.step (fun (t : ℚ) (_ u : ℚ) => (t + u, (42 : ℚ)))
        Scheme.initRoundoff 0 1 (1/2)
      = (0, (0 + 1/2, 1 + 42)) :=
  ⟨rfl, scheme_step_compensated_sum (fun t _ u => (t + u, (42 : ℚ))) 0 1 (1/2) rfl⟩

/-- Claim C10: `ExplicitEuler.step(t, u, h)` computes the state update
with the stored step size `self.h`, not the `h` argument: it returns
`(t + h, u + self.h * f(t, u))`, so the returned time uses the argument
while the state uses the stored size; when `f(t,u) ≠ 0` the two are
consistent exactly when `self.h = h`, which is what the default
`do_step` driver passes. -/
theorem explicitEuler_step_stored_h (f : ℚ → ℚ → ℚ) (selfH t u h : ℚ) :
    (ExplicitEuler.step f selfH t u h).1 = t + h ∧
    (ExplicitEuler.step f selfH t u h).2 = u + selfH * f t u ∧
    (f t u ≠ 0 →
      ((ExplicitEuler.step f selfH t u h).2 = u + h * f t u ↔ selfH = h)) ∧
    Scheme.do_step (ExplicitEuler.step f selfH) selfH (u, t)
      = (u + selfH * f t u, t + selfH) := by
  refine ⟨rfl, rfl, ?_, rfl⟩
  intro hf
  constructor
  · intro he
    exact mul_right_cancel₀ hf (add_left_cancel he)
  · intro he
    subst he
    rfl

/-- Witness for C10 with `f(t,u) = -u`, stored size 1, argument `h = 2`,
`u = 1`: consistency of the state with the argument step size is
equivalent to `1 = 2`. -/
theorem explicitEuler_step_stored_h_witness :
    ((fun (_ u : ℚ) => -u) 0 1 ≠ 0) ∧
    ((ExplicitEuler.step (fun _ u => -u) 1 0 1 2).2
        = 1 + 2 * (fun (_ u : ℚ) => -u) 0 1 ↔ (1 : ℚ) = 2) :=
  ⟨by norm_num,
    (explicitEuler_step_stored_h (fun _ u => -u) 1 0 1 2).2.2.1 (by norm_num)⟩

/-- Counterexample to C4 as stated: with stored step size `self.h = 1`
and argument `h = 2`, for `f(t,u) = -u` from `u = 1` at `t = 0`,
`ExplicitEuler.step` returns state `1 + 1*(-1) = 0`, not the claimed
`u + h*f(t,u) = 1 + 2*(-1) = -1`. -/
theorem explicitEuler_step_h_claim_cex :
    ¬ (ExplicitEuler.step (fun _ u => -u) 1 0 1 2
        = (0 + 2, 1 + 2 * (-(1 : ℚ)))) := by
  norm_num [ExplicitEuler.step, Prod.ext_iff]

/-- Claim C4 (amended): provided the stored step size `self.h` equals
the argument `h` — as the default `do_step` driver guarantees —
`ExplicitEuler.step(t, u, h)` returns `(t + h, u + h * f(t, u))`;
in particular, for the vector field `f(t, u) = -u`, one step of size
`h` from `u = 1` yields exactly `1 - h`. -/
theorem explicitEuler_step_amended (f : ℚ → ℚ → ℚ) (selfH t u h : ℚ)
    (hh : selfH = h) :
    ExplicitEuler.step f selfH t u h = (t + h, u + h * f t u) ∧
    ExplicitEuler.step (fun _ v => -v) h t 1 h = (t + h, 1 - h) := by
  subst hh
  refine ⟨rfl, ?_⟩
  simp only [ExplicitEuler.step, Prod.mk.injEq]
  refine ⟨trivial, by ring⟩

/-- Witness for the amended C4 at `h = self.h = 1/4`, `t = 0`, `u = 1`,
`f(t,u) = -u`. -/
theorem explicitEuler_step_amended_witness :
    ((1 : ℚ)/4 = 1/4) ∧
    (ExplicitEuler.step (fun _ v => -v) (1/4) 0 1 (1/4)
        = (0 + 1/4, 1 + (1/4) * (fun (_ v : ℚ) => -v) 0 1) ∧
      ExplicitEuler.step (fun _ v => -v) (1/4) 0 1 (1/4)
        = (0 + 1/4, 1 - 1/4)) :=
  ⟨rfl, explicitEuler_step_amended (fun _ v => -v) (1/4) 0 1 (1/4) rfl⟩

/-- Counterexample to C5 as stated: with stored step size `self.h = 1`
and argument `h = 2`, for the zero vector field from `u = 5` at `t = 0`
with a root solver that succeeds (it returns the guess, which is an
exact root of the residual), `ImplicitEuler.step` returns time
`t + self.h = 1`, not the claimed `t + h = 2`. -/
theorem implicitEuler_step_time_cex :
    ImplicitEuler.residual (fun _ _ => (0 : ℚ)) 0 5 2
        ((ImplicitEuler.step (fun _ _ => (0 : ℚ)) (fun _ g => g) 1 0 5 2).2) = 0 ∧
    (ImplicitEuler.step (fun _ _ => (0 : ℚ)) (fun _ g => g) 1 0 5 2).1 ≠ 0 + 2 := by
  constructor
  · norm_num [ImplicitEuler.step, ImplicitEuler.residual]
  · norm_num [ImplicitEuler.step]

/-- Claim C5 (amended): `ImplicitEuler.step(t, u, h)` returns a pair
`(t + self.h, u1)` — the time component uses the stored step size, so
it is `t + h` exactly when `self.h = h` — where, assuming the root
solver succeeds (its output is a root of the residual it was given),
the returned state `u1` is a root of the backward-Euler residual:
`u1 - u - h * f(t+h, u1) = 0`. -/
theorem implicitEuler_step_amended (f : ℚ → ℚ → ℚ)
    (solverRun : (ℚ → ℚ) → ℚ → ℚ) (selfH t u h : ℚ)
    (hroot : ImplicitEuler.residual f t u h
        (solverRun (fun u1 => ImplicitEuler.residual f t u h u1)
          (u + h * f t u)) = 0) :
    (ImplicitEuler.step f solverRun selfH t u h).2 - u
        - h * f (t + h) ((ImplicitEuler.step f solverRun selfH t u h).2) = 0 ∧
    (ImplicitEuler.step f solverRun selfH t u h).1 = t + selfH ∧
    (selfH = h → (ImplicitEuler.step f solverRun selfH t u h).1 = t + h) := by
  refine ⟨?_, rfl, ?_⟩
  · simpa [ImplicitEuler.step, ImplicitEuler.residual] using hroot
  · intro he
    subst he
    rfl

/-- Witness for the amended C5: zero vector field, solver returning the
guess (an exact root), `self.h = h = 2`, `u = 5`, `t = 0`: the returned
time is `t + h`. -/
theorem implicitEuler_step_amended_witness :
    (ImplicitEuler.step (fun _ _ => (0 : ℚ)) (fun _ g => g) 2 0 5 2).1 = 0 + 2 :=
  (implicitEuler_step_amended (fun _ _ => (0 : ℚ)) (fun _ g => g) 2 0 5 2
      (by norm_num [ImplicitEuler.residual])).2.2 rfl

/-- Claim C2: `Scheme.delta` first runs the direct solver on the
residual from `get_residual` with the guess from `get_guess`; exactly
when (iff) that solve signals non-convergence it logs the diagnostic and
runs Newton on the same residual and the same guess; if Newton also
signals non-convergence, that failure propagates to the caller
(`result = none`, no further fallback). -/
theorem scheme_delta_solver_fallback {U : Type}
    (get_residual : ℚ → U → ℚ → (U → U)) (get_guess : ℚ → U → ℚ → U)
    (reconstruct : U → U)
    (fsolveRun newtonRun : (U → U) → U → RunOutcome U)
    (t : ℚ) (u0 : U) (h : ℚ) :
    ((Scheme.delta get_residual get_guess reconstruct fsolveRun newtonRun
          t u0 h).log = ["Switch nonlinear solver"]
      ↔ fsolveRun (get_residual t u0 h) (get_guess t u0 h)
          = RunOutcome.didNotConverge) ∧
    (∀ r, fsolveRun (get_residual t u0 h) (get_guess t u0 h)
          = RunOutcome.converged r →
      Scheme.delta get_residual get_guess reconstruct fsolveRun newtonRun
          t u0 h = ⟨some (t + h, reconstruct r), []⟩) ∧
    (∀ r, fsolveRun (get_residual t u0 h) (get_guess t u0 h)
          = RunOutcome.didNotConverge →
      newtonRun (get_residual t u0 h) (get_guess t u0 h)
          = RunOutcome.converged r →
      Scheme.delta get_residual get_guess reconstruct fsolveRun newtonRun
          t u0 h
        = ⟨some (t + h, reconstruct r), ["Switch nonlinear solver"]⟩) ∧
    (fsolveRun (get_residual t u0 h) (get_guess t u0 h)
          = RunOutcome.didNotConverge →
      newtonRun (get_residual t u0 h) (get_guess t u0 h)
          = RunOutcome.didNotConverge →
      (Scheme.delta get_residual get_guess reconstruct fsolveRun newtonRun
          t u0 h).result = none) := by
  cases hf : fsolveRun (get_residual t u0 h) (get_guess t u0 h) with
  | converged r0 =>
    refine ⟨?_, ?_, ?_, ?_⟩
    · simp [Scheme.delta, hf]
    · intro r hr
      cases hr
      simp [Scheme.delta, hf]
    · intro r hr
      cases hr
    · intro hr
      cases hr
  | didNotConverge =>
    cases hn : newtonRun (get_residual t u0 h) (get_guess t u0 h) with
    | converged r1 =>
      refine ⟨?_, ?_, ?_, ?_⟩
      · simp [Scheme.delta, hf, hn]
      · intro r hr
        cases hr
      · intro r _ hr
        cases hr
        simp [Scheme.delta, hf, hn]
      · intro _ hr
        cases hr
    | didNotConverge =>
      refine ⟨?_, ?_, ?_, ?_⟩
      · simp [Scheme.delta, hf, hn]
      · intro r hr
        cases hr
      · intro r _ hr
        cases hr
      · intro _ _
        simp [Scheme.delta, hf, hn]

/-- Witness for C2: both solvers signal non-convergence on the identity
residual with zero guess, so the failure propagates (`result = none`). -/
theorem scheme_delta_solver_fallback_witness :
    (fun (_ : ℚ → ℚ) (_ : ℚ) => (RunOutcome.didNotConverge : RunOutcome ℚ))
        ((fun (_ : ℚ) (_ : ℚ) (_ : ℚ) => (id : ℚ → ℚ)) 0 1 1)
        ((fun (_ : ℚ) (_ : ℚ) (_ : ℚ) => (0 : ℚ)) 0 1 1)
      = RunOutcome.didNotConverge ∧
    (Scheme.delta (fun _ _ _ => id) (fun _ _ _ => 0) id
        (fun _ _ => RunOutcome.didNotConverge)
        (fun _ _ => RunOutcome.didNotConverge) 0 (1 : ℚ) 1).result = none :=
  ⟨rfl,
    (scheme_delta_solver_fallback (fun _ _ _ => id) (fun _ _ _ => 0) id
        (fun _ _ => RunOutcome.didNotConverge)
        (fun _ _ => RunOutcome.didNotConverge) 0 (1 : ℚ) 1).2.2.2 rfl rfl⟩

/-- Claim C3: `RungeKutta34.increment_stepsize` rewrites the stored `h`
to `h * (tol/error)^(1/error_order)` whenever the stored error estimate
exceeds `1e-15`, and sets `h = 1` when the error estimate is at or below
`1e-15`; consequently (for positive `tol` and `h`) an error estimate
larger than `tol` strictly shrinks `h`, and a numerically zero error
estimate resets `h` to 1. -/
theorem rk34_increment_stepsize_policy (tol error h : ℝ) :
    (1e-15 < error →
      RungeKutta34.increment_stepsize tol error h
        = h * (tol / error) ^ ((1 : ℝ) / RungeKutta34.error_order)) ∧
    (error ≤ 1e-15 → RungeKutta34.increment_stepsize tol error h = 1) ∧
    (0 < tol → tol < error → 1e-15 < error → 0 < h →
      RungeKutta34.increment_stepsize tol error h < h) := by
  refine ⟨?_, ?_, ?_⟩
  · intro hc
    rw [RungeKutta34.increment_stepsize]
    exact if_pos hc
  · intro hc
    rw [RungeKutta34.increment_stepsize]
    exact if_neg (not_lt.mpr hc)
  · intro htol htl hc hh
    rw [RungeKutta34.increment_stepsize, if_pos hc]
    have herr : (0 : ℝ) < error := lt_trans htol htl
    have hx0 : (0 : ℝ) ≤ tol / error := le_of_lt (div_pos htol herr)
    have hx1 : tol / error < 1 := (div_lt_one herr).mpr htl
    have hq : (tol / error) ^ ((1 : ℝ) / RungeKutta34.error_order) < 1 :=
      Real.rpow_lt_one hx0 hx1 (by norm_num [RungeKutta34.error_order])
    exact mul_lt_of_lt_one_right hh hq

/-- Witness for C3 at the default tolerance `1e-6`, error estimate
`1e-3 > tol` and stored `h = 2`: the step size strictly shrinks; and a
zero error estimate resets `h` to 1. -/
theorem rk34_increment_stepsize_policy_witness :
    ((0 : ℝ) < 1e-6 ∧ (1e-6 : ℝ) < 1e-3 ∧ (1e-15 : ℝ) < 1e-3 ∧ (0 : ℝ) < 2) ∧
    RungeKutta34.increment_stepsize 1e-6 1e-3 2 < 2 ∧
    RungeKutta34.increment_stepsize 1e-6 0 2 = 1 :=
  ⟨⟨by norm_num, by norm_num, by norm_num, by norm_num⟩,
    (rk34_increment_stepsize_policy 1e-6 1e-3 2).2.2 (by norm_num)
      (by norm_num) (by norm_num) (by norm_num),
    (rk34_increment_stepsize_policy 1e-6 0 2).2.1 (by norm_num)⟩

/-- Claim C6: `RungeKutta34.step` returns exactly the same `(t1, u1)`
pair as `RungeKutta4.step` (the classical four-stage update
`u + h/6*(Y1 + 2*Y2 + 2*Y3 + Y4)`); the embedded third-order estimate
only sets the error field to the norm of the weighted stage difference
`h/6*(2*Y2 + Z3 - 2*Y3 - Y4)` and does not change the returned state. -/
theorem rk34_step_refines_rk4 {V : Type} [AddCommGroup V] [Module ℚ V]
    (norm : V → ℝ) (f : ℚ → V → V) (t : ℚ) (u : V) (h : ℚ) :
    (RungeKutta34.step norm f t u h).1 = RungeKutta4.step f t u h ∧
    ∃ Y1 Y2 Y3 Z3 Y4,
      Y1 = f t u ∧
      Y2 = f (t + h / 2) (u + (h / 2) • Y1) ∧
      Y3 = f (t + h / 2) (u + (h / 2) • Y2) ∧
      Z3 = f (t + h) (u - h • Y1 + (2 * h) • Y2) ∧
      Y4 = f (t + h) (u + h • Y3) ∧
      (RungeKutta34.step norm f t u h).2
        = norm ((h / 6) • ((2 : ℚ) • Y2 + Z3 - (2 : ℚ) • Y3 - Y4)) :=
  ⟨rfl, _, _, _, _, _, rfl, rfl, rfl, rfl, rfl, rfl⟩

/-- Claim C7: `NonHolonomic.multi_dynamics` returns exactly two
vector-field contributions over the augmented state: the LobattoIIIA one
equals `[velocity(ut), 0]` and the LobattoIIIB one equals
`[0, force(ut) + reaction_force(ut)]`, and their sum equals
`[velocity(ut), force(ut) + reaction_force(ut)]`, the unsplit
constrained dynamics. -/
theorem nonholonomic_multi_dynamics_split {U : Type} {d m : ℕ}
    (sys : NonHolonomicSystem U d m) (ut : U) :
    NonHolonomic.multi_dynamics sys ut RKMethod.LobattoIIIA
        = Sum.elim (sys.velocity ut) (0 : Fin d → ℚ) ∧
    NonHolonomic.multi_dynamics sys ut RKMethod.LobattoIIIB
        = Sum.elim (0 : Fin d → ℚ)
            (fun j => sys.force ut j + NonHolonomic.reaction_force sys ut j) ∧
    NonHolonomic.multi_dynamics sys ut RKMethod.LobattoIIIA
        + NonHolonomic.multi_dynamics sys ut RKMethod.LobattoIIIB
        = Sum.elim (sys.velocity ut)
            (fun j => sys.force ut j + NonHolonomic.reaction_force sys ut j) := by
  refine ⟨rfl, rfl, ?_⟩
  funext x
  cases x with
  | inl i => simp [NonHolonomic.multi_dynamics]
  | inr j => simp [NonHolonomic.multi_dynamics]

/-- Claim C8: `ode15s.initialize` selects the external solver variant
exactly once, at initialization: `vode` when the initial event vector is
real-valued, `zvode` when it is complex-valued; `ode15s.step` never
changes the stored variant. -/
theorem ode15s_variant_selection (events : EventMatrix)
    (vode : ℚ → (ℚ × List ℚ) × Bool) (s : VodeIntegrator) (h : ℚ) :
    ( ode15s.initializeInteg events).variant
        = (if iscomplexobj events then "zvode" else "vode") ∧
    (iscomplexobj events = false →
      ( ode15s.initializeInteg events).variant = "vode") ∧
    (iscomplexobj events = true →
      ( ode15s.initializeInteg events).variant = "zvode") ∧
    ((ode15s.step vode s h).1.1).variant = s.variant := by
  refine ⟨rfl, ?_, ?_, rfl⟩
  · intro hc
    simp [ode15s.initializeInteg, hc]
  · intro hc
    simp [ode15s.initializeInteg, hc]

/-- Witness for C8: a real-valued event matrix selects `vode`, a
complex-valued one selects `zvode`, and a step leaves the variant
untouched. -/
theorem ode15s_variant_selection_witness :
    iscomplexobj ⟨false, [1, 0]⟩ = false ∧
    ( ode15s.initializeInteg ⟨false, [1, 0]⟩).variant = "vode" ∧
    iscomplexobj ⟨true, [1, 0]⟩ = true ∧
    ( ode15s.initializeInteg ⟨true, [1, 0]⟩).variant = "zvode" :=
  ⟨rfl,
    (ode15s_variant_selection ⟨false, [1, 0]⟩ (fun tt => ((tt, []), true))
        ⟨"vode", 0, []⟩ 1).2.1 rfl,
    rfl,
    (ode15s_variant_selection ⟨true, [1, 0]⟩ (fun tt => ((tt, []), true))
        ⟨"vode", 0, []⟩ 1).2.2.1 rfl⟩

/-- Claim C9: when the external stiff solver reports a failed internal
step (`successful()` is false), `ode15s.step` does not fail: it surfaces
the diagnostic `vode error` and still returns the external solver's
current `(t, y)` pair; on success no diagnostic is emitted and the same
pair is returned. -/
theorem ode15s_step_stall_reporting (vode : ℚ → (ℚ × List ℚ) × Bool)
    (s : VodeIntegrator) (h : ℚ) :
    (ode15s.step vode s h).2
        = ((vode (s.t + h)).1.1, (vode (s.t + h)).1.2) ∧
    ((vode (s.t + h)).2 = false →
      (ode15s.step vode s h).1.2 = ["vode error"]) ∧
    ((vode (s.t + h)).2 = true → (ode15s.step vode s h).1.2 = []) := by
  refine ⟨rfl, ?_, ?_⟩
  · intro hfail
    simp [ode15s.step, hfail]
  · intro hok
    simp [ode15s.step, hok]

/-- Witness for C9: an external solver that stalls (reports failure) at
`t = 7` with `y = [1]`: the step emits the diagnostic and returns the
solver's `(t, y)`. -/
theorem ode15s_step_stall_reporting_witness :
    ((fun (_ : ℚ) => (((7 : ℚ), [(1 : ℚ)]), false)) ((0 : ℚ) + 1)).2 = false ∧
    (ode15s.step (fun _ => ((7, [1]), false)) ⟨"vode", 0, []⟩ 1).1.2
      = ["vode error"] ∧
    (ode15s.step (fun _ => ((7, [1]), false)) ⟨"vode", 0, []⟩ 1).2 = (7, [1]) :=
  ⟨rfl,
    (ode15s_step_stall_reporting (fun _ => ((7, [1]), false))
        ⟨"vode", 0, []⟩ 1).2.1 rfl,
    (ode15s_step_stall_reporting (fun _ => ((7, [1]), false))
        ⟨"vode", 0, []⟩ 1).1⟩
